import Mathlib

/-! Process system calls of `proc_syscalls.c`.

A shallow embedding of `sys__exit`, `sys_fork`, `sys_waitpid` and `sys_execv`
and of the process table they share, followed by the properties proved of them.

Conventions of the embedding.

* A pointer to a `struct procTable` is the index of the descriptor in `allProcs`;
  a `NULL` pointer is `none`.
* `reusePIDs` stores addresses of `pid` fields.  No function of this file writes
  a `pid` field, so the pool is kept as the list of the pids those addresses hold.
* `array_add` is taken to succeed (its result is ignored by the source).
* Collaborators whose results the source inspects (`copyout`, `vfs_open`,
  `as_create`, `load_elf`, ...) are inputs of the embedded function.
* Kernel memory is not laid out: a buffer obtained from `kmalloc` holds what was
  stored in it as long as every store stayed inside it, and the embedded function
  stops at the first store outside it.
* A call that does not get to its `return` ends in one of the other constructors
  of `Outcome`.
-/

namespace ProcSyscalls

/-! ## Data model -/

/-- The three values of the `state` field of a descriptor. -/
inductive ProcStatus where
  | PROC_RUNNING
  | PROC_ZOMBIE
  | PROC_EXITED
deriving DecidableEq, Repr

open ProcStatus

/-- The descriptor `struct procTable`; the fields are the four the source reads and writes. -/
structure procTable where
  pid : Int
  ppid : Int
  state : ProcStatus
  exitCode : Int
deriving DecidableEq, Repr

/-- The globals the system calls share: the array `allProcs`, the pool `reusePIDs`
and `procTableLock` (true while the lock is held). -/
structure ProcTableState where
  allProcs : List procTable
  reusePIDs : List Int
  procTableLock : Bool
deriving DecidableEq, Repr

/-- How a call ends: it gets to the end of the modelled code (`done`), it
dereferences a `NULL` pointer, it stops at `lock_acquire` on a lock that is never
released, or it is parked in `cv_wait`. -/
inductive Outcome (α : Type) where
  | done (a : α)
  | nullDeref
  | lockBusy
  | sleeping
deriving DecidableEq, Repr

/-! ## Constants of headers that are not part of the source file -/

/-- Modelled from the spec: `ENOMEM` of `kern/errno.h` (out-of-memory); the header is
not in the source, the number is the one of the OS/161 header. -/
def ENOMEM : Int := 3
/-- Modelled from the spec: `EFAULT` of `kern/errno.h` (bad-address). -/
def EFAULT : Int := 6
/-- Modelled from the spec: `EINVAL` of `kern/errno.h` (invalid-argument). -/
def EINVAL : Int := 8
/-- Modelled from the spec: `ENPROC` of `kern/errno.h` (resource-exhausted). -/
def ENPROC : Int := 12
/-- Modelled from the spec: `ENOEXEC` of `kern/errno.h`, an error of the loader. -/
def ENOEXEC : Int := 13
/-- Modelled from the spec: `E2BIG` of `kern/errno.h` (argument-list-too-long). -/
def E2BIG : Int := 14
/-- Modelled from the spec: `ESRCH` of `kern/errno.h` (no-such-process). -/
def ESRCH : Int := 15
/-- Modelled from the spec: `ECHILD` of `kern/errno.h` (no-child-processes). -/
def ECHILD : Int := 16

/-- The value of a C `int` expression: the mathematical result reduced to 32 bits,
two's complement. -/
def wrapInt32 (x : Int) : Int := (x + 2147483648) % 4294967296 - 2147483648

/-- Modelled from the spec: `_MKWAIT_EXIT` of `kern/wait.h`, the "normal" status
encoding.  The header is not in the source; this is the OS/161 macro
`(((x) << 2) | 0)`. -/
def _MKWAIT_EXIT (x : Int) : Int := Int.lor (wrapInt32 (x * 4)) 0

/-- Modelled from the spec: `_MKWAIT_SIG` of `kern/wait.h`, the "abnormal/signal"
status encoding, the OS/161 macro `(((x) << 2) | 1)`. -/
def _MKWAIT_SIG (x : Int) : Int := Int.lor (wrapInt32 (x * 4)) 1

/-- Modelled from the spec: `WIFEXITED` of `kern/wait.h`, the test that a status
word is a normal-exit status, `(((x) & 3) == 0)`. -/
def WIFEXITED (s : Int) : Bool := Int.land s 3 == 0

/-- Modelled from the spec: `WEXITSTATUS` of `kern/wait.h`, the exit-code field of a
status word, `((x) >> 2)`. -/
def WEXITSTATUS (s : Int) : Int := s >>> 2

/-! ## The process table -/

/-- Modelled from the spec: `getPT` is declared outside the source file.  The table
is a mapping pid → descriptor, and a pid with no descriptor gives `NULL`: the
result is the position of the first descriptor of `allProcs` that carries `pid`. -/
def getPT : List procTable → Int → Option Nat
  | [], _ => none
  | d :: ds, pid => if d.pid = pid then some 0 else (getPT ds pid).map (· + 1)

/-- The descriptor `getPT` points at, if any. -/
def getDesc (st : ProcTableState) (pid : Int) : Option procTable :=
  (getPT st.allProcs pid).bind (fun i => st.allProcs[i]?)

/-- The pids of all descriptors are pairwise different. -/
def UniquePids (st : ProcTableState) : Prop := (st.allProcs.map (·.pid)).Nodup

instance (st : ProcTableState) : Decidable (UniquePids st) := by
  unfold UniquePids; infer_instance

/-! ## `sys__exit` -/

/-- One iteration of the loop of `sys__exit` (lines 43-48): `cur` is
`array_get(allProcs, i)`, `pt1` the caller's descriptor, `noPid` is `PROC_NO_PID`. -/
def exitLoopBody (noPid : Int) (pt1 : Nat) (s : List procTable × List Int) (i : Nat) :
    List procTable × List Int :=
  match s.1[i]?, s.1[pt1]? with
  | some cur, some p =>
    if cur.ppid = p.pid ∧ cur.state = PROC_ZOMBIE then
      (s.1.set i { cur with state := PROC_EXITED, ppid := noPid }, s.2 ++ [cur.pid])
    else s
  | _, _ => s

/-- The loop `for (i = 0; i < array_num(allProcs); i++)` of `sys__exit`. -/
def exitLoop (noPid : Int) (pt1 : Nat) (procs : List procTable) (pool : List Int) :
    List procTable × List Int :=
  (List.range procs.length).foldl (exitLoopBody noPid pt1) (procs, pool)

/-- The part of `sys__exit` that runs under `procTableLock` (lines 24-51), for the
caller `curproc->pid = curpid`.  `noPid` is the constant `PROC_NO_PID`, whose value
is not in the source.  The result is the table at `lock_release`; what follows in
the source (`as_destroy`, `proc_remthread`, `proc_destroy`, `thread_exit`) tears the
caller down, never returns, and is taken to leave the table alone.  `cv_broadcast`
changes no field of the table. -/
def sys__exit (noPid : Int) (st : ProcTableState) (curpid : Int) (exitcode : Int)
    (safe : Bool) : Outcome ProcTableState :=
  if st.procTableLock then .lockBusy else
  match getPT st.allProcs curpid with
  | none => .nullDeref
  | some pt1 =>
    match st.allProcs[pt1]? with
    | none => .nullDeref
    | some d =>
      let s1 : List procTable × List Int :=
        if d.ppid ≠ noPid then
          (st.allProcs.set pt1
            { d with state := PROC_ZOMBIE,
                     exitCode := if safe then _MKWAIT_EXIT exitcode else _MKWAIT_SIG exitcode },
           st.reusePIDs)
        else
          (st.allProcs.set pt1 { d with state := PROC_EXITED }, st.reusePIDs ++ [d.pid])
      let s2 := exitLoop noPid pt1 s1.1 s1.2
      .done { allProcs := s2.1, reusePIDs := s2.2, procTableLock := false }

/-! ## `sys_waitpid` -/

/-- What `sys_waitpid` leaves behind when it returns: the returned value, the word
stored at the user pointer `status` (`none` if nothing is stored), the value
stored in `*retval` (`none` if nothing is stored), and the globals. -/
structure WaitResult where
  ret : Int
  status : Option Int
  retval : Option Int
  st : ProcTableState
deriving DecidableEq, Repr

/-- The function `sys_waitpid` (lines 157-202) called by the process `curpid`.
`copyout` is the value the collaborator `copyout` returns for the pointer
`status` (0 for a valid pointer). -/
def sys_waitpid (st : ProcTableState) (curpid : Int) (pid : Int) (copyout : Int)
    (options : Int) : Outcome WaitResult :=
  if st.procTableLock then .lockBusy else
  let held : ProcTableState := { st with procTableLock := true }
  let free : ProcTableState := { st with procTableLock := false }
  let pt1 := getDesc st pid
  let result : Int :=
    match pt1 with
    | none => ESRCH
    | some d => if curpid ≠ d.ppid then ECHILD else 0
  if result ≠ 0 then
    .done { ret := result, status := none, retval := none, st := free }
  else if options ≠ 0 then
    .done { ret := EINVAL, status := none, retval := none, st := held }
  else
    match pt1 with
    | none => .nullDeref
    | some d =>
      if d.state = PROC_RUNNING then .sleeping
      else
        let exitstatus := d.exitCode
        if copyout ≠ 0 then
          .done { ret := copyout, status := none, retval := none, st := free }
        else
          .done { ret := 0, status := some exitstatus, retval := some pid, st := free }

/-- What the loop of `sys__exit` does to one descriptor, `epid` being the pid of
the exiting process. -/
def reapOne (noPid epid : Int) (d : procTable) : procTable :=
  if d.ppid = epid ∧ d.state = PROC_ZOMBIE then
    { d with state := PROC_EXITED, ppid := noPid }
  else d

/-- The descriptors the loop of `sys__exit` reaps: Zombie children of `epid`. -/
def isZombieChildOf (epid : Int) (d : procTable) : Bool :=
  decide (d.ppid = epid ∧ d.state = PROC_ZOMBIE)

/-- The caller's descriptor as `sys__exit` leaves it before its loop. -/
def exitSelf (noPid : Int) (d : procTable) (exitcode : Int) (safe : Bool) : procTable :=
  if d.ppid ≠ noPid then
    { d with state := PROC_ZOMBIE,
             exitCode := if safe then _MKWAIT_EXIT exitcode else _MKWAIT_SIG exitcode }
  else { d with state := PROC_EXITED }

/-- The call `o` of `sys_waitpid` on the table `st` returned the error `e`, changed
no descriptor and no entry of the reuse pool, and stored nothing at `status` or in
`*retval`. -/
def WaitFailsWith (st : ProcTableState) (o : Outcome WaitResult) (e : Int) : Prop :=
  ∃ r, o = .done r ∧ r.ret = e ∧ r.status = none ∧ r.retval = none ∧
    r.st.allProcs = st.allProcs ∧ r.st.reusePIDs = st.reusePIDs

/-- A table with a parent (pid 1) and its Zombie child (pid 2, exit code 7). -/
def zombieTable : ProcTableState :=
  { allProcs := [⟨1, 0, PROC_RUNNING, 0⟩, ⟨2, 1, PROC_ZOMBIE, 28⟩],
    reusePIDs := [], procTableLock := false }

/-- A table with a Running process 2 (child of 1), its Zombie child 3, its Running
child 4, and an unrelated Zombie 5 (child of 1). -/
def familyTable : ProcTableState :=
  { allProcs := [⟨1, 0, PROC_RUNNING, 0⟩, ⟨2, 1, PROC_RUNNING, 0⟩, ⟨3, 2, PROC_ZOMBIE, 20⟩,
                 ⟨4, 2, PROC_RUNNING, 0⟩, ⟨5, 1, PROC_ZOMBIE, 8⟩],
    reusePIDs := [], procTableLock := false }

/-! ## `sys_fork` -/

/-- What `sys_fork` leaves behind when it returns: the returned value, the value
stored in `*retval` (`none` if nothing is stored), and the globals. -/
structure ForkResult where
  ret : Int
  retval : Option Int
  st : ProcTableState
deriving DecidableEq, Repr

/-- The function `sys_fork` (lines 97-146) called by the process `curpid`.
`proc_create_runprogram` and `proc_destroy` are defined outside the source file and
are inputs: the first gives the pid of the new `struct proc` (`none` for `NULL`) and
the table it leaves, the second the table it leaves after destroying the process
with the given pid.  `asCopied` tells that `as_copy` left a non-`NULL`
`p_addrspace`, `ntf` that `kmalloc` returned a trap frame, `thread_fork` is the value
`thread_fork` returns. -/
def sys_fork (proc_create_runprogram : ProcTableState → Option Int × ProcTableState)
    (proc_destroy : ProcTableState → Int → ProcTableState)
    (st : ProcTableState) (curpid : Int) (asCopied ntf : Bool) (thread_fork : Int) :
    Outcome ForkResult :=
  match proc_create_runprogram st with
  -- line 101 reads `newProc->pid` before line 104 tests `newProc == NULL`
  | (none, _) => .nullDeref
  | (some newpid, st1) =>
    match getPT st1.allProcs newpid with
    | none => .nullDeref
    | some pt1 =>
      match st1.allProcs[pt1]? with
      | none => .nullDeref
      | some c =>
        let st2 : ProcTableState :=
          { st1 with allProcs := st1.allProcs.set pt1 { c with ppid := curpid } }
        if !asCopied then
          .done { ret := ENOMEM, retval := none, st := proc_destroy st2 newpid }
        else if !ntf then
          .done { ret := ENOMEM, retval := none, st := proc_destroy st2 newpid }
        else if thread_fork ≠ 0 then
          .done { ret := thread_fork, retval := none, st := proc_destroy st2 newpid }
        else
          .done { ret := 0, retval := some newpid, st := st2 }

/-- A `proc_create_runprogram` that appends a Running descriptor with pid 2. -/
def createPid2 (st : ProcTableState) : Option Int × ProcTableState :=
  (some 2, { st with allProcs := st.allProcs ++ [⟨2, 0, PROC_RUNNING, 0⟩] })

/-- A `proc_destroy` that leaves the table alone. -/
def destroyKeep (st : ProcTableState) (_pid : Int) : ProcTableState := st

/-- A table with the single Running process 1. -/
def initTable : ProcTableState :=
  { allProcs := [⟨1, 0, PROC_RUNNING, 0⟩], reusePIDs := [], procTableLock := false }

/-! ## `sys_execv` -/

/-- The calls `sys_execv` makes to its collaborators, with the arguments that matter.
An address space is named by its address (0 is `NULL`). -/
inductive ExecEvent where
  | vfs_open
  | vfs_close
  | as_create
  | curproc_setas (as : Nat)
  | as_activate
  | load_elf
  | as_define_stack
  | copyoutstr (addr : Nat) (s : List Char)
  | copyout (addr : Nat) (word : Nat)
  | as_destroy (as : Nat)
  | enter_new_process (argc : Nat) (argv : Nat) (stackptr : Nat) (entrypoint : Nat)
deriving DecidableEq, Repr

/-- Why `sys_execv` stops without returning and without getting to
`enter_new_process`: a load or store through a `NULL` pointer, or a store outside the
block `kmalloc` returned, after which the behaviour of the C code is undefined. -/
inductive ExecFault where
  | nullDeref
  | heapOverflow
deriving DecidableEq, Repr

/-- What the collaborators of `sys_execv` answer.
`kmallocProgram` tells that the `kmalloc` of line 218 returned a buffer.
`kmallocArgs` is the answer of the `kmalloc` of line 237, which asks for `argc + 1`
bytes for `newArgs`: `none` for `NULL`, otherwise the number of bytes of the block
that may be used.  `kmallocArg i` tells that the `kmalloc` of line 240 returned a
buffer for argument `i`, and `copyinstrArg i` is the value `copyinstr` returns for
that argument and that buffer.  `vfs_open` is the value `vfs_open` returns for the
path `kstrdup` produced.  `as_uninit` is the content of the local variable `as`,
which the source declares and never assigns. -/
structure ExecEnv where
  kmallocProgram : Bool
  copyinstrProgram : Int
  kmallocArgs : Option Nat
  kmallocArg : Nat → Bool
  copyinstrArg : Nat → Int
  vfs_open : Int
  as_create : Nat
  load_elf : Int
  entrypoint : Nat
  as_define_stack : Int
  stackptr : Nat
  copyoutstr : Nat → Int
  copyout : Nat → Int
  as_uninit : Nat

/-- How `sys_execv` ends: the value it returns (`none` when it does not return), the
collaborator calls in order, `curproc->p_addrspace` at that point, and, when it does
not return, why: `fault` is `none` when control went to `enter_new_process`. -/
structure ExecResult where
  ret : Option Int
  trace : List ExecEvent
  p_addrspace : Nat
  fault : Option ExecFault := none
deriving DecidableEq, Repr

/-- The C function `strlen` on a string given by its characters before the terminator. -/
def strlen (s : List Char) : Nat := s.length

/-- Subtraction of `vaddr_t` values (32 bits, unsigned). -/
def sub32 (a b : Nat) : Nat := (a + 4294967296 - b % 4294967296) % 4294967296

/-- The loop `while ((stackptr % m) != 0) stackptr--;` run for at most `fuel` rounds. -/
def alignLoop (m : Nat) : Nat → Nat → Nat
  | 0, sp => sp
  | fuel + 1, sp => if sp % m ≠ 0 then alignLoop m fuel (sub32 sp 1) else sp

/-- The loop of lines 227-231: `none` when some argument has `strlen > 1024`,
otherwise the count `argc`. -/
def countArgs : List (List Char) → Nat → Option Nat
  | [], argc => some argc
  | a :: rest, argc => if strlen a > 1024 then none else countArgs rest (argc + 1)

/-- How the loop of lines 238-244 ends: all arguments copied, a `copyinstr` failed
with the given result, or a pointer was stored outside the block of `newArgs`. -/
inductive CopyIn where
  | copied
  | failed (result : Int)
  | overflow
deriving DecidableEq, Repr

/-- The loop of lines 238-244 from index `i` on, `n` arguments left.  `room` is the
number of usable bytes of the block of `newArgs`; the store `newArgs[i] = kmalloc(...)`
writes the four bytes at offset `4 * i`. -/
def copyinArgs (room : Nat) (copyinstr : Nat → Int) : Nat → Nat → CopyIn
  | _, 0 => .copied
  | i, n + 1 =>
    if room < 4 * (i + 1) then .overflow
    else if copyinstr i ≠ 0 then .failed (copyinstr i)
    else copyinArgs room copyinstr (i + 1) n

/-- The entries `newArgs[i]`, `newArgs[i + 1]`, ... after the loop of lines 238-244 has
copied every argument: the kernel copy of the argument, or `none` (a `NULL` pointer)
where `kmalloc` returned no buffer. -/
def kernelArgs (kmallocArg : Nat → Bool) : Nat → List (List Char) → List (Option (List Char))
  | _, [] => []
  | i, a :: rest => (if kmallocArg i then some a else none) :: kernelArgs kmallocArg (i + 1) rest

/-- The state of the stack building loops: the error (0 for none), `stackptr`, the
entries of `argptr` written so far, the calls made, and whether a `NULL` entry of
`newArgs` was read through. -/
structure Pushed where
  err : Int
  sp : Nat
  ptrs : List Nat
  trace : List ExecEvent
  fault : Bool := false
deriving DecidableEq, Repr

/-- The loop of lines 293-300 over the entries of `newArgs`, `i` running from
`argc - 1` down to 0: the rounds for the later entries come first, the round of the
head last.  `strlen(newArgs[i])` reads through the entry. -/
def pushStrings (copyoutstr : Nat → Int) : List (Option (List Char)) → Nat → Pushed
  | [], sp => { err := 0, sp := sp, ptrs := [], trace := [] }
  | b :: rest, sp =>
    let r := pushStrings copyoutstr rest sp
    if r.err ≠ 0 ∨ r.fault = true then r
    else
      match b with
      | none => { r with fault := true }
      | some a =>
        let sp1 := sub32 r.sp (strlen a + 1)
        let tr := r.trace ++ [ExecEvent.copyoutstr sp1 a]
        if copyoutstr sp1 ≠ 0 then
          { err := copyoutstr sp1, sp := sp1, ptrs := r.ptrs, trace := tr }
        else { err := 0, sp := sp1, ptrs := sp1 :: r.ptrs, trace := tr }

/-- The loop of lines 307-313 over the entries of `argptr`, `i` running from `argc`
down to 0: the rounds for the later entries come first. -/
def pushWords (copyout : Nat → Int) : List Nat → Nat → Pushed
  | [], sp => { err := 0, sp := sp, ptrs := [], trace := [] }
  | w :: rest, sp =>
    let r := pushWords copyout rest sp
    if r.err ≠ 0 then r
    else
      let sp1 := sub32 r.sp 4
      let tr := r.trace ++ [ExecEvent.copyout sp1 w]
      if copyout sp1 ≠ 0 then { err := copyout sp1, sp := sp1, ptrs := [], trace := tr }
      else { err := 0, sp := sp1, ptrs := [], trace := tr }

/-- The last part of `sys_execv` (lines 289-321), entered once `as_define_stack` has
succeeded: the stack is built in the new address space from the entries of `newArgs`
and control goes to `enter_new_process`.  `before` are the collaborator calls made so
far. -/
def buildStack (env : ExecEnv) (argc : Nat) (newArgs : List (Option (List Char)))
    (before : List ExecEvent) : ExecResult :=
  let sp0 := alignLoop 8 8 env.stackptr
  let r1 := pushStrings env.copyoutstr newArgs sp0
  if r1.fault = true then
    { ret := none, trace := before ++ r1.trace, p_addrspace := env.as_create,
      fault := some .nullDeref }
  else if r1.err ≠ 0 then
    { ret := some r1.err, trace := before ++ r1.trace, p_addrspace := env.as_create }
  else
    let sp1 := alignLoop 4 4 r1.sp
    let r2 := pushWords env.copyout (r1.ptrs ++ [0]) sp1
    if r2.err ≠ 0 then
      { ret := some r2.err, trace := before ++ r1.trace ++ r2.trace,
        p_addrspace := env.as_create }
    else
      { ret := none,
        trace := before ++ r1.trace ++ r2.trace ++
          [.as_destroy env.as_uninit, .enter_new_process argc r2.sp r2.sp env.entrypoint],
        p_addrspace := env.as_create }

/-- The collaborator calls of `sys_execv` up to and including a successful
`as_define_stack`. -/
def loadTrace (env : ExecEnv) : List ExecEvent :=
  [.vfs_open, .as_create, .curproc_setas env.as_create, .as_activate, .load_elf,
   .vfs_close, .as_define_stack]

/-- The function `sys_execv` (lines 204-327) for a process whose address space is
`curas`; `progname` is `none` for a `NULL` pointer, `args` are the strings of the
vector before its `NULL` entry. -/
def sys_execv (env : ExecEnv) (curas : Nat) (progname : Option (List Char))
    (args : List (List Char)) : ExecResult :=
  match progname with
  | none => { ret := some EFAULT, trace := [], p_addrspace := curas }
  | some _ =>
    if !env.kmallocProgram then { ret := some ENOMEM, trace := [], p_addrspace := curas }
    else if env.copyinstrProgram ≠ 0 then
      { ret := some env.copyinstrProgram, trace := [], p_addrspace := curas }
    else
    match countArgs args 0 with
    | none => { ret := some E2BIG, trace := [], p_addrspace := curas }
    | some argc =>
      if argc > 64 then { ret := some E2BIG, trace := [], p_addrspace := curas }
      else
      match env.kmallocArgs with
      -- `newArgs` is `NULL`: the stores of lines 240 and 246 go through it
      | none => { ret := none, trace := [], p_addrspace := curas, fault := some .nullDeref }
      | some room =>
      match copyinArgs room env.copyinstrArg 0 argc with
      | .overflow =>
        { ret := none, trace := [], p_addrspace := curas, fault := some .heapOverflow }
      | .failed result => { ret := some result, trace := [], p_addrspace := curas }
      | .copied =>
      -- line 246, `newArgs[argc] = NULL`, writes the four bytes at offset `4 * argc`
      if room < 4 * (argc + 1) then
        { ret := none, trace := [], p_addrspace := curas, fault := some .heapOverflow }
      else if env.vfs_open ≠ 0 then
        { ret := some env.vfs_open, trace := [.vfs_open], p_addrspace := curas }
      else if env.as_create = 0 then
        { ret := some ENOMEM, trace := [.vfs_open, .as_create, .vfs_close],
          p_addrspace := curas }
      else if env.load_elf ≠ 0 then
        { ret := some env.load_elf,
          trace := [.vfs_open, .as_create, .curproc_setas env.as_create, .as_activate,
                    .load_elf, .vfs_close, .curproc_setas env.as_uninit],
          p_addrspace := env.as_uninit }
      else if env.as_define_stack ≠ 0 then
        { ret := some env.as_define_stack,
          trace := loadTrace env ++ [.curproc_setas env.as_uninit],
          p_addrspace := env.as_uninit }
      else buildStack env argc (kernelArgs env.kmallocArg 0 args) (loadTrace env)

/-- Collaborators that all succeed: `kmalloc` gives a block of 16 bytes for
`newArgs` and a buffer for every argument, the new address space is at 2000, the
stack top is `0x80000000`, the entry point `0x400000`; the unassigned local `as` holds
3000. -/
def okEnv : ExecEnv :=
  { kmallocProgram := true, copyinstrProgram := 0, kmallocArgs := some 16,
    kmallocArg := fun _ => true, copyinstrArg := fun _ => 0,
    vfs_open := 0, as_create := 2000, load_elf := 0, entrypoint := 4194304,
    as_define_stack := 0, stackptr := 2147483648, copyoutstr := fun _ => 0,
    copyout := fun _ => 0, as_uninit := 3000 }

/-- The bytes an argument string takes on the stack: its characters and the terminator. -/
def argSize (a : List Char) : Nat := strlen a + 1

/-- Where the copies of the arguments start when they are packed downwards from
`top`, the last argument ending at `top`: the address for argument `i` is `top` minus
the sizes of the arguments `i`, `i + 1`, ... -/
def stringAddrs (top : Nat) : List (List Char) → List Nat
  | [] => []
  | a :: rest => (top - ((a :: rest).map argSize).sum) :: stringAddrs top rest

/-- The `copyoutstr` calls that pack the arguments downwards from `top`, in the order
they are made (last argument first). -/
def stringWrites (top : Nat) : List (List Char) → List ExecEvent
  | [] => []
  | a :: rest =>
    stringWrites top rest ++ [ExecEvent.copyoutstr (top - ((a :: rest).map argSize).sum) a]

/-- The `copyout` calls that store the words `ws` at `sp`, `sp + 4`, ..., in the order
they are made (last word first). -/
def wordWrites : Nat → List Nat → List ExecEvent
  | _, [] => []
  | sp, w :: rest => wordWrites (sp + 4) rest ++ [ExecEvent.copyout sp w]

/-- The stack top after the first alignment loop. -/
def stackTop8 (env : ExecEnv) : Nat := env.stackptr - env.stackptr % 8

/-- The lowest address taken by the argument strings packed below `top`. -/
def stringsBase (top : Nat) (args : List (List Char)) : Nat := top - (args.map argSize).sum

/-- The final stack pointer: `stringsBase` aligned down to 4, less the `argc + 1` words
of the pointer array. -/
def finalSp (top : Nat) (args : List (List Char)) : Nat :=
  stringsBase top args - stringsBase top args % 4 - 4 * (args.length + 1)

/-! ## Theorems -/

/-! ### The table lookup -/

theorem getPT_some_iff (procs : List procTable) (pid : Int) (i : Nat) :
    getPT procs pid = some i ↔
      (∃ d, procs[i]? = some d ∧ d.pid = pid) ∧
        ∀ j, j < i → ∀ e, procs[j]? = some e → e.pid ≠ pid := by
  induction procs generalizing i with
  | nil => simp [getPT]
  | cons d ds ih =>
    by_cases hd : d.pid = pid
    · simp only [getPT, hd, if_true]
      constructor
      · intro h
        have h0 : i = 0 := by simpa using h.symm
        subst h0
        simp [hd]
      · rintro ⟨_, hmin⟩
        cases i with
        | zero => rfl
        | succ k => exact absurd hd (hmin 0 (Nat.succ_pos k) d (by simp))
    · simp only [getPT, hd, if_false]
      cases i with
      | zero =>
        simp only [Option.map_eq_some', List.getElem?_cons_zero, Option.some.injEq]
        constructor
        · rintro ⟨a, _, ha⟩; omega
        · rintro ⟨⟨e, he, hp⟩, _⟩; subst he; exact absurd hp hd
      | succ k =>
        simp only [Option.map_eq_some', add_left_inj, exists_eq_right, List.getElem?_cons_succ]
        rw [ih k]
        constructor
        · rintro ⟨hex, hmin⟩
          refine ⟨hex, ?_⟩
          intro j hj e he
          cases j with
          | zero =>
            simp only [List.getElem?_cons_zero, Option.some.injEq] at he
            subst he; exact hd
          | succ j =>
            simp only [List.getElem?_cons_succ] at he
            exact hmin j (by omega) e he
        · rintro ⟨hex, hmin⟩
          refine ⟨hex, ?_⟩
          intro j hj e he
          exact hmin (j + 1) (by omega) e (by simpa using he)

theorem getPT_none_iff (procs : List procTable) (pid : Int) :
    getPT procs pid = none ↔ ∀ d ∈ procs, d.pid ≠ pid := by
  induction procs with
  | nil => simp [getPT]
  | cons d ds ih =>
    by_cases hd : d.pid = pid
    · simp [getPT, hd]
    · simp [getPT, hd, ih]

theorem getPT_congr (procs procs2 : List procTable) (pid : Int)
    (h : procs2.map (·.pid) = procs.map (·.pid)) : getPT procs2 pid = getPT procs pid := by
  induction procs generalizing procs2 with
  | nil =>
    have : procs2 = [] := by simpa using h
    subst this; rfl
  | cons d ds ih =>
    cases procs2 with
    | nil => simp at h
    | cons e es =>
      simp only [List.map_cons, List.cons.injEq] at h
      simp only [getPT, h.1, ih es h.2]

theorem getDesc_eq_some (st : ProcTableState) (pid : Int) (d : procTable)
    (h : getDesc st pid = some d) :
    ∃ i, getPT st.allProcs pid = some i ∧ st.allProcs[i]? = some d ∧ d.pid = pid := by
  unfold getDesc at h
  cases hg : getPT st.allProcs pid with
  | none => simp [hg] at h
  | some i =>
    simp only [hg, Option.some_bind] at h
    obtain ⟨⟨e, he, hp⟩, _⟩ := (getPT_some_iff _ _ _).1 hg
    rw [h] at he
    cases he
    exact ⟨i, rfl, h, hp⟩

theorem uniquePids_index (procs : List procTable) (h : (procs.map (·.pid)).Nodup)
    (i j : Nat) (a b : procTable) (hi : procs[i]? = some a) (hj : procs[j]? = some b)
    (hab : a.pid = b.pid) : i = j := by
  induction procs generalizing i j with
  | nil => simp at hi
  | cons d ds ih =>
    simp only [List.map_cons, List.nodup_cons, List.mem_map, not_exists, not_and] at h
    cases i with
    | zero =>
      cases j with
      | zero => rfl
      | succ j =>
        simp only [List.getElem?_cons_zero, Option.some.injEq] at hi
        simp only [List.getElem?_cons_succ] at hj
        subst hi
        exact absurd hab.symm (h.1 b (List.getElem?_mem hj))
    | succ i =>
      cases j with
      | zero =>
        simp only [List.getElem?_cons_zero, Option.some.injEq] at hj
        simp only [List.getElem?_cons_succ] at hi
        subst hj
        exact absurd hab (h.1 a (List.getElem?_mem hi))
      | succ j =>
        simp only [List.getElem?_cons_succ] at hi hj
        rw [ih h.2 i j hi hj]

/-! ### The loop of `sys__exit` -/

theorem reapOne_pid (noPid epid : Int) (d : procTable) : (reapOne noPid epid d).pid = d.pid := by
  unfold reapOne; split <;> rfl

theorem exitLoop_aux (noPid : Int) (pt1 : Nat) (epid : Int) :
    ∀ (post pre : List procTable) (pool : List Int),
      (∃ p, (pre ++ post)[pt1]? = some p ∧ p.pid = epid) →
      (List.range' pre.length post.length).foldl (exitLoopBody noPid pt1) (pre ++ post, pool)
        = (pre ++ post.map (reapOne noPid epid),
           pool ++ (post.filter (isZombieChildOf epid)).map (·.pid)) := by
  intro post
  induction post with
  | nil => intro pre pool _; simp
  | cons c post ih =>
    intro pre pool hp
    obtain ⟨p, hp, hpid⟩ := hp
    have hc : (pre ++ c :: post)[pre.length]? = some c := by
      rw [List.getElem?_append_right (Nat.le_refl _)]; simp
    simp only [List.length_cons, List.range'_succ, List.foldl_cons]
    by_cases hcond : c.ppid = epid ∧ c.state = PROC_ZOMBIE
    · have hstep : exitLoopBody noPid pt1 (pre ++ c :: post, pool) pre.length
          = ((pre ++ [reapOne noPid epid c]) ++ post, pool ++ [c.pid]) := by
        simp only [exitLoopBody, hc, hp, hpid, hcond, and_self, if_true]
        congr 1
        rw [List.set_append_right _ _ (Nat.le_refl _)]
        simp [reapOne, hcond]
      rw [hstep]
      have hlen : (pre ++ [reapOne noPid epid c]).length = pre.length + 1 := by simp
      rw [← hlen, ih (pre ++ [reapOne noPid epid c]) (pool ++ [c.pid])]
      · simp [isZombieChildOf, hcond]
      · by_cases hpt : pt1 = pre.length
        · subst hpt
          rw [hc] at hp
          cases hp
          refine ⟨reapOne noPid epid c, ?_, by rw [reapOne_pid]; exact hpid⟩
          rw [List.append_assoc, List.getElem?_append_right (Nat.le_refl _)]
          simp
        · refine ⟨p, ?_, hpid⟩
          rw [← hp]
          rcases Nat.lt_or_gt_of_ne hpt with hlt | hgt
          · rw [List.append_assoc, List.getElem?_append_left hlt, List.getElem?_append_left hlt]
          · rw [List.append_assoc, List.getElem?_append_right (Nat.le_of_lt hgt),
              List.getElem?_append_right (Nat.le_of_lt hgt)]
            obtain ⟨k, hk⟩ : ∃ k, pt1 - pre.length = k + 1 := ⟨pt1 - pre.length - 1, by omega⟩
            simp [hk]
    · have hstep : exitLoopBody noPid pt1 (pre ++ c :: post, pool) pre.length
          = ((pre ++ [reapOne noPid epid c]) ++ post, pool) := by
        simp only [exitLoopBody, hc, hp, hpid, hcond, if_false]
        simp [reapOne, hcond]
      rw [hstep]
      have hlen : (pre ++ [reapOne noPid epid c]).length = pre.length + 1 := by simp
      rw [← hlen, ih (pre ++ [reapOne noPid epid c]) pool]
      · simp [isZombieChildOf, hcond]
      · refine ⟨p, ?_, hpid⟩
        rw [← hp]
        simp [reapOne, hcond]

theorem exitLoop_eq (noPid : Int) (pt1 : Nat) (procs : List procTable) (pool : List Int)
    (p : procTable) (hp : procs[pt1]? = some p) :
    exitLoop noPid pt1 procs pool
      = (procs.map (reapOne noPid p.pid),
         pool ++ (procs.filter (isZombieChildOf p.pid)).map (·.pid)) := by
  have h := exitLoop_aux noPid pt1 p.pid procs [] pool ⟨p, by simpa using hp, rfl⟩
  simpa [exitLoop, List.range_eq_range'] using h

/-- The table `sys__exit` leaves, in closed form. -/
theorem sys__exit_eq (noPid : Int) (st : ProcTableState) (curpid exitcode : Int) (safe : Bool)
    (i : Nat) (d : procTable) (hlock : st.procTableLock = false)
    (hi : getPT st.allProcs curpid = some i) (hd : st.allProcs[i]? = some d) :
    sys__exit noPid st curpid exitcode safe = .done
      { allProcs := (st.allProcs.set i (exitSelf noPid d exitcode safe)).map (reapOne noPid d.pid),
        reusePIDs := (if d.ppid ≠ noPid then st.reusePIDs else st.reusePIDs ++ [d.pid]) ++
          ((st.allProcs.set i (exitSelf noPid d exitcode safe)).filter
            (isZombieChildOf d.pid)).map (·.pid),
        procTableLock := false } := by
  have hlt : i < st.allProcs.length := (List.getElem?_eq_some.1 hd).1
  have hself : (st.allProcs.set i (exitSelf noPid d exitcode safe))[i]?
      = some (exitSelf noPid d exitcode safe) := List.getElem?_set_self hlt
  have hpid : (exitSelf noPid d exitcode safe).pid = d.pid := by
    unfold exitSelf; split <;> rfl
  unfold sys__exit
  simp only [hlock, hi, hd, Bool.false_eq_true, if_false]
  by_cases hpp : d.ppid = noPid
  · simp only [exitSelf, hpp, ne_eq, not_true_eq_false, if_false] at hself ⊢
    rw [exitLoop_eq _ _ _ _ _ hself]
  · simp only [exitSelf, hpp, ne_eq, not_false_eq_true, if_true] at hself ⊢
    rw [exitLoop_eq _ _ _ _ _ hself]

theorem exitSelf_pid (noPid : Int) (d : procTable) (exitcode : Int) (safe : Bool) :
    (exitSelf noPid d exitcode safe).pid = d.pid := by
  unfold exitSelf; split <;> rfl

theorem set_same_pid (procs : List procTable) (i : Nat) (d x : procTable)
    (hd : procs[i]? = some d) (hx : x.pid = d.pid) :
    (procs.set i x).map (·.pid) = procs.map (·.pid) := by
  apply List.ext_getElem?
  intro n
  simp only [List.getElem?_map, List.getElem?_set]
  by_cases hn : i = n
  · subst hn
    have hlt : i < procs.length := (List.getElem?_eq_some.1 hd).1
    simp [hlt, hd, hx]
  · simp [hn]

theorem pids_after_exit (noPid epid : Int) (procs : List procTable) (i : Nat) (d x : procTable)
    (hd : procs[i]? = some d) (hx : x.pid = d.pid) :
    ((procs.set i x).map (reapOne noPid epid)).map (·.pid) = procs.map (·.pid) := by
  rw [← set_same_pid procs i d x hd hx, List.map_map]
  apply List.map_congr_left
  intro a _
  exact reapOne_pid noPid epid a

/-- Decoding a normal-exit status word gives back the exit code, for codes of one byte. -/
theorem mkwait_exit_decode (c : Int) (h0 : 0 ≤ c) (h1 : c ≤ 255) :
    WIFEXITED (_MKWAIT_EXIT c) = true ∧ WEXITSTATUS (_MKWAIT_EXIT c) = c := by
  interval_cases c <;> decide

/-! ### Exit, then wait -/

/-- C1. A process `C` whose parent is `P` calls `sys__exit(c, true)` with a code `c` in
0..255, and `P` then calls `sys_waitpid(C, status, 0)` with a valid `status` pointer:
the exit completes, the wait returns 0, stores `C` in `*retval`, and stores a status
word that is a normal-exit status whose exit-code field is `c`.  (`P` is a pid other
than `C` and other than `PROC_NO_PID`; the state of `C` before it exits plays no role.) -/
theorem exit_then_waitpid_roundtrip (noPid : Int) (st : ProcTableState) (C P c : Int)
    (d : procTable) (hlock : st.procTableLock = false) (h0 : 0 ≤ c) (h1 : c ≤ 255)
    (hC : getDesc st C = some d) (_hrun : d.state = PROC_RUNNING) (hpar : d.ppid = P)
    (hP : P ≠ noPid) (hPC : P ≠ C) :
    ∃ st1 s, sys__exit noPid st C c true = .done st1 ∧
      sys_waitpid st1 P C 0 0
        = .done { ret := 0, status := some s, retval := some C, st := st1 } ∧
      WIFEXITED s = true ∧ WEXITSTATUS s = c := by
  obtain ⟨i, hi, hd, hpid⟩ := getDesc_eq_some st C d hC
  have hlt : i < st.allProcs.length := (List.getElem?_eq_some.1 hd).1
  have hne : d.ppid ≠ noPid := by rw [hpar]; exact hP
  have hself : exitSelf noPid d c true
      = { d with state := PROC_ZOMBIE, exitCode := _MKWAIT_EXIT c } := by
    simp [exitSelf, hne]
  refine ⟨_, _MKWAIT_EXIT c, sys__exit_eq noPid st C c true i d hlock hi hd, ?_,
    mkwait_exit_decode c h0 h1⟩
  have hget : getPT ((st.allProcs.set i (exitSelf noPid d c true)).map (reapOne noPid d.pid)) C
      = some i := by
    rw [getPT_congr st.allProcs _ C
      (pids_after_exit noPid d.pid st.allProcs i d _ hd (exitSelf_pid noPid d c true))]
    exact hi
  have hdesc : ((st.allProcs.set i (exitSelf noPid d c true)).map (reapOne noPid d.pid))[i]?
      = some { d with state := PROC_ZOMBIE, exitCode := _MKWAIT_EXIT c } := by
    rw [List.getElem?_map, List.getElem?_set_self hlt, hself]
    have : ¬ (d.ppid = d.pid) := by rw [hpar, hpid]; exact hPC
    simp [reapOne, this]
  simp only [sys_waitpid, getDesc, hget, hdesc, Option.some_bind, Bool.false_eq_true, if_false]
  simp [hpar]

/-- C1, at the code 7 of the scenario: the child 2 of process 1 exits with 7 and
process 1 then collects it. -/
theorem exit_then_waitpid_roundtrip_witness :
    ∃ st1 s, sys__exit 0
        { allProcs := [⟨1, 0, PROC_RUNNING, 0⟩, ⟨2, 1, PROC_RUNNING, 0⟩],
          reusePIDs := [], procTableLock := false } 2 7 true = .done st1 ∧
      sys_waitpid st1 1 2 0 0
        = .done { ret := 0, status := some s, retval := some 2, st := st1 } ∧
      WIFEXITED s = true ∧ WEXITSTATUS s = 7 :=
  exit_then_waitpid_roundtrip 0
    { allProcs := [⟨1, 0, PROC_RUNNING, 0⟩, ⟨2, 1, PROC_RUNNING, 0⟩],
      reusePIDs := [], procTableLock := false } 2 1 7 ⟨2, 1, PROC_RUNNING, 0⟩
    rfl (by decide) (by decide) (by decide) rfl rfl (by decide) (by decide)

/-! ### Validation in `sys_waitpid` -/

/-- C2. Called with the lock free, `sys_waitpid` returns `ESRCH` when no descriptor
carries `pid`; otherwise `ECHILD` when the caller's pid differs from the target's
`ppid`; otherwise `EINVAL` when `options` is not 0.  In all three cases no descriptor
and no entry of the reuse pool changes and nothing is stored at `status` or in
`*retval`. -/
theorem sys_waitpid_validation (st : ProcTableState) (caller pid copyout options : Int)
    (hlock : st.procTableLock = false) :
    ((∀ d ∈ st.allProcs, d.pid ≠ pid) →
        WaitFailsWith st (sys_waitpid st caller pid copyout options) ESRCH) ∧
    (∀ d, getDesc st pid = some d → caller ≠ d.ppid →
        WaitFailsWith st (sys_waitpid st caller pid copyout options) ECHILD) ∧
    (∀ d, getDesc st pid = some d → caller = d.ppid → options ≠ 0 →
        WaitFailsWith st (sys_waitpid st caller pid copyout options) EINVAL) := by
  refine ⟨?_, ?_, ?_⟩
  · intro h
    have hnone : getDesc st pid = none := by
      simp [getDesc, (getPT_none_iff st.allProcs pid).2 h]
    have hcall : sys_waitpid st caller pid copyout options
        = .done { ret := ESRCH, status := none, retval := none,
                  st := { st with procTableLock := false } } := by
      simp [sys_waitpid, hlock, hnone, ESRCH]
    exact ⟨_, hcall, rfl, rfl, rfl, rfl, rfl⟩
  · intro d hd hne
    have hcall : sys_waitpid st caller pid copyout options
        = .done { ret := ECHILD, status := none, retval := none,
                  st := { st with procTableLock := false } } := by
      simp [sys_waitpid, hlock, hd, hne, ECHILD]
    exact ⟨_, hcall, rfl, rfl, rfl, rfl, rfl⟩
  · intro d hd heq hopt
    have hcall : sys_waitpid st caller pid copyout options
        = .done { ret := EINVAL, status := none, retval := none,
                  st := { st with procTableLock := true } } := by
      simp [sys_waitpid, hlock, hd, heq, hopt]
    exact ⟨_, hcall, rfl, rfl, rfl, rfl, rfl⟩

/-- C2, at concrete calls on `zombieTable`: pid 9 is absent, process 5 is not the
parent of 2, and process 1 passes `options = 1`. -/
theorem sys_waitpid_validation_witness :
    WaitFailsWith zombieTable (sys_waitpid zombieTable 1 9 0 0) ESRCH ∧
    WaitFailsWith zombieTable (sys_waitpid zombieTable 5 2 0 0) ECHILD ∧
    WaitFailsWith zombieTable (sys_waitpid zombieTable 1 2 0 1) EINVAL :=
  ⟨(sys_waitpid_validation zombieTable 1 9 0 0 rfl).1 (by decide),
   (sys_waitpid_validation zombieTable 5 2 0 0 rfl).2.1 ⟨2, 1, PROC_ZOMBIE, 28⟩ (by decide)
     (by decide),
   (sys_waitpid_validation zombieTable 1 2 0 1 rfl).2.2 ⟨2, 1, PROC_ZOMBIE, 28⟩ (by decide)
     rfl (by decide)⟩

/-- C3. Process 1 waits for its child 2 with `options = 1`: `sys_waitpid` returns
`EINVAL` and `procTableLock` is still held, whereas on the `ESRCH` and `ECHILD`
returns the lock has been released. -/
theorem sys_waitpid_einval_keeps_lock :
    sys_waitpid zombieTable 1 2 0 1
      = .done { ret := EINVAL, status := none, retval := none,
                st := { zombieTable with procTableLock := true } } ∧
    sys_waitpid zombieTable 1 9 0 1
      = .done { ret := ESRCH, status := none, retval := none, st := zombieTable } ∧
    sys_waitpid zombieTable 5 2 0 1
      = .done { ret := ECHILD, status := none, retval := none, st := zombieTable } := by
  decide

/-! ### Collecting a Zombie -/

/-- C4, as the claim states it, fails: process 1 collects its Zombie child 2; the call
succeeds, yet the child is still Zombie (not Exited), pid 2 is not in the reuse pool,
and the second wait on the resulting table returns 0, not `ESRCH`. -/
theorem sys_waitpid_no_reap_counterexample :
    ∃ r, sys_waitpid zombieTable 1 2 0 0 = .done r ∧ r.ret = 0 ∧
      getDesc r.st 2 = some ⟨2, 1, PROC_ZOMBIE, 28⟩ ∧ 2 ∉ r.st.reusePIDs ∧
      ∃ r2, sys_waitpid r.st 1 2 0 0 = .done r2 ∧ r2.ret = 0 ∧ r2.ret ≠ ESRCH :=
  ⟨{ ret := 0, status := some 28, retval := some 2, st := zombieTable },
    by decide, rfl, by decide, by decide,
    { ret := 0, status := some 28, retval := some 2, st := zombieTable },
    by decide, rfl, by decide⟩

/-- C4, amended. For a Zombie descriptor of `C` whose `ppid` is the caller's pid,
`sys_waitpid(C, status, 0)` with a valid `status` pointer returns 0 and stores the
recorded status and `C`, and it leaves the table as it was: the descriptor of `C` is
still the same Zombie and the reuse pool is unchanged.  A second such call on the
resulting table gives the same result again. -/
theorem sys_waitpid_zombie_stays (st : ProcTableState) (caller C : Int) (d : procTable)
    (hlock : st.procTableLock = false) (hd : getDesc st C = some d)
    (hz : d.state = PROC_ZOMBIE) (hpar : d.ppid = caller) :
    ∃ r, sys_waitpid st caller C 0 0 = .done r ∧
      r = { ret := 0, status := some d.exitCode, retval := some C, st := st } ∧
      getDesc r.st C = some d ∧ r.st.reusePIDs = st.reusePIDs ∧
      sys_waitpid r.st caller C 0 0 = .done r := by
  have hst : ({ st with procTableLock := false } : ProcTableState) = st := by
    cases st; simp_all
  have hcall : sys_waitpid st caller C 0 0
      = .done { ret := 0, status := some d.exitCode, retval := some C, st := st } := by
    simp [sys_waitpid, hlock, hd, hz, hpar, hst]
  exact ⟨_, hcall, rfl, hd, rfl, hcall⟩

/-- C4 amended, at `zombieTable`: process 1 collects child 2 twice. -/
theorem sys_waitpid_zombie_stays_witness :
    ∃ r, sys_waitpid zombieTable 1 2 0 0 = .done r ∧
      r = { ret := 0, status := some 28, retval := some 2, st := zombieTable } ∧
      getDesc r.st 2 = some ⟨2, 1, PROC_ZOMBIE, 28⟩ ∧ r.st.reusePIDs = zombieTable.reusePIDs ∧
      sys_waitpid r.st 1 2 0 0 = .done r :=
  sys_waitpid_zombie_stays zombieTable 1 2 ⟨2, 1, PROC_ZOMBIE, 28⟩ rfl (by decide) rfl rfl

/-! ### The transitions of `sys__exit` -/

theorem mem_reaped_cases (st : ProcTableState) (i : Nat)
    (d x : procTable) (hd : st.allProcs[i]? = some d)
    (hx : x.pid = d.pid) (q : Int)
    (hq : q ∈ ((st.allProcs.set i x).filter (isZombieChildOf d.pid)).map (·.pid)) :
    (q = d.pid ∧ x.ppid = d.pid ∧ x.state = PROC_ZOMBIE) ∨
      ∃ k e, k ≠ i ∧ st.allProcs[k]? = some e ∧ e.pid = q ∧ e.ppid = d.pid ∧
        e.state = PROC_ZOMBIE := by
  simp only [List.mem_map, List.mem_filter, isZombieChildOf, decide_eq_true_eq] at hq
  obtain ⟨e, ⟨hmem, hpp, hz⟩, hpid⟩ := hq
  obtain ⟨k, hk⟩ := List.mem_iff_getElem?.1 hmem
  rw [List.getElem?_set] at hk
  by_cases hik : i = k
  · subst hik
    have hlt : i < st.allProcs.length := (List.getElem?_eq_some.1 hd).1
    simp only [if_true, hlt] at hk
    cases hk
    exact Or.inl ⟨by rw [← hpid, hx], hpp, hz⟩
  · simp only [hik, if_false] at hk
    exact Or.inr ⟨k, e, fun h => hik h.symm, hk, hpid, hpp, hz⟩

/-- C5. In a table with unique pids, a Running caller whose `ppid` is not its own pid
calls `sys__exit(code, safe)`.  If its `ppid` is not `PROC_NO_PID`, its descriptor
ends Zombie with `exitCode` equal to `_MKWAIT_EXIT(code)` when `safe` and
`_MKWAIT_SIG(code)` otherwise, and its pid occurs in the reuse pool exactly as often
as before.  If its `ppid` is `PROC_NO_PID`, its descriptor ends Exited and its pid is
in the reuse pool. -/
theorem sys__exit_caller_transition (noPid : Int) (st : ProcTableState)
    (curpid code : Int) (safe : Bool) (d : procTable)
    (hlock : st.procTableLock = false) (huniq : UniquePids st)
    (hd : getDesc st curpid = some d) (_hrun : d.state = PROC_RUNNING)
    (hself : d.ppid ≠ d.pid) :
    ∃ st1, sys__exit noPid st curpid code safe = .done st1 ∧
      (d.ppid ≠ noPid →
        getDesc st1 curpid = some { d with
          state := PROC_ZOMBIE,
          exitCode := if safe then _MKWAIT_EXIT code else _MKWAIT_SIG code } ∧
        st1.reusePIDs.count curpid = st.reusePIDs.count curpid) ∧
      (d.ppid = noPid →
        getDesc st1 curpid = some { d with state := PROC_EXITED } ∧
        curpid ∈ st1.reusePIDs) := by
  obtain ⟨i, hi, hdi, hpid⟩ := getDesc_eq_some st curpid d hd
  have hlt : i < st.allProcs.length := (List.getElem?_eq_some.1 hdi).1
  refine ⟨_, sys__exit_eq noPid st curpid code safe i d hlock hi hdi, ?_, ?_⟩
  · intro hne
    have hget : getPT ((st.allProcs.set i (exitSelf noPid d code safe)).map
        (reapOne noPid d.pid)) curpid = some i := by
      rw [getPT_congr st.allProcs _ curpid
        (pids_after_exit noPid d.pid st.allProcs i d _ hdi (exitSelf_pid noPid d code safe))]
      exact hi
    constructor
    · simp only [getDesc, hget, Option.some_bind]
      rw [List.getElem?_map, List.getElem?_set_self hlt]
      simp [exitSelf, hne, reapOne, hself]
    · simp only [hne, ne_eq, not_false_eq_true, if_true, List.count_append]
      have hnot : curpid ∉ ((st.allProcs.set i (exitSelf noPid d code safe)).filter
          (isZombieChildOf d.pid)).map (·.pid) := by
        intro hq
        rcases mem_reaped_cases st i d _ hdi
          (exitSelf_pid noPid d code safe) curpid hq with ⟨_, hpp, _⟩ | ⟨k, e, hki, hk, hep, _, _⟩
        · have : (exitSelf noPid d code safe).ppid = d.ppid := by
            unfold exitSelf; split <;> rfl
          exact hself (this ▸ hpp)
        · exact hki (uniquePids_index st.allProcs huniq k i e d hk hdi (by rw [hep, hpid]))
      rw [List.count_eq_zero_of_not_mem hnot, Nat.add_zero]
  · intro heq
    have hget : getPT ((st.allProcs.set i (exitSelf noPid d code safe)).map
        (reapOne noPid d.pid)) curpid = some i := by
      rw [getPT_congr st.allProcs _ curpid
        (pids_after_exit noPid d.pid st.allProcs i d _ hdi (exitSelf_pid noPid d code safe))]
      exact hi
    constructor
    · simp only [getDesc, hget, Option.some_bind]
      rw [List.getElem?_map, List.getElem?_set_self hlt]
      simp [exitSelf, heq, reapOne]
    · simp [heq, hpid]

/-- C5, at `familyTable`: process 2 (parent 1) exits with code 7 in the normal way
and ends Zombie with status 28, its pid not in the pool; the parentless process 1
exits and ends Exited with its pid in the pool. -/
theorem sys__exit_caller_transition_witness :
    (∃ st1, sys__exit 0 familyTable 2 7 true = .done st1 ∧
      getDesc st1 2 = some ⟨2, 1, PROC_ZOMBIE, 28⟩ ∧
      st1.reusePIDs.count 2 = familyTable.reusePIDs.count 2) ∧
    (∃ st1, sys__exit 0 familyTable 1 7 false = .done st1 ∧
      getDesc st1 1 = some ⟨1, 0, PROC_EXITED, 0⟩ ∧ (1 : Int) ∈ st1.reusePIDs) :=
  ⟨(sys__exit_caller_transition 0 familyTable 2 7 true ⟨2, 1, PROC_RUNNING, 0⟩
      rfl (by decide) (by decide) rfl (by decide)).imp
      fun _ h => ⟨h.1, h.2.1 (by decide)⟩,
   (sys__exit_caller_transition 0 familyTable 1 7 false ⟨1, 0, PROC_RUNNING, 0⟩
      rfl (by decide) (by decide) rfl (by decide)).imp
      fun _ h => ⟨h.1, h.2.2 rfl⟩⟩

/-- C6. In a table with unique pids, let `e` be a descriptor (at position `j`) other
than that of the process `curpid` calling `sys__exit`.  If `e.ppid` is the exiting pid
and `e` is Zombie, then after the exit the descriptor is Exited with `ppid`
`PROC_NO_PID`, otherwise unchanged, and its pid is in the reuse pool.  In every other
case the descriptor is unchanged and its pid is in the reuse pool afterwards only if
it was there before. -/
theorem sys__exit_reaps_zombie_children (noPid : Int) (st : ProcTableState)
    (curpid code : Int) (safe : Bool) (d e : procTable) (j : Nat)
    (hlock : st.procTableLock = false) (huniq : UniquePids st)
    (hd : getDesc st curpid = some d) (he : st.allProcs[j]? = some e)
    (hother : e.pid ≠ curpid) :
    ∃ st1, sys__exit noPid st curpid code safe = .done st1 ∧
      (e.ppid = curpid ∧ e.state = PROC_ZOMBIE →
        st1.allProcs[j]? = some { e with state := PROC_EXITED, ppid := noPid } ∧
        e.pid ∈ st1.reusePIDs) ∧
      (¬ (e.ppid = curpid ∧ e.state = PROC_ZOMBIE) →
        st1.allProcs[j]? = some e ∧ (e.pid ∈ st1.reusePIDs → e.pid ∈ st.reusePIDs)) := by
  obtain ⟨i, hi, hdi, hpid⟩ := getDesc_eq_some st curpid d hd
  have hji : i ≠ j := by
    intro h
    subst h
    rw [hdi] at he
    cases he
    exact hother hpid
  have hat : (st.allProcs.set i (exitSelf noPid d code safe))[j]? = some e := by
    rw [List.getElem?_set_ne hji]; exact he
  refine ⟨_, sys__exit_eq noPid st curpid code safe i d hlock hi hdi, ?_, ?_⟩
  · intro hz
    rw [← hpid] at hz
    constructor
    · simp only [List.getElem?_map, hat, Option.map_some']
      simp [reapOne, hz]
    · apply List.mem_append_right
      simp only [List.mem_map, List.mem_filter, isZombieChildOf, decide_eq_true_eq]
      exact ⟨e, ⟨List.getElem?_mem hat, hz⟩, rfl⟩
  · intro hz
    rw [← hpid] at hz
    constructor
    · simp only [List.getElem?_map, hat, Option.map_some']
      simp [reapOne, hz]
    · intro hmem
      rcases List.mem_append.1 hmem with hpool | hreaped
      · by_cases hpp : d.ppid = noPid
        · simp only [hpp, ne_eq, not_true_eq_false, if_false, List.mem_append,
            List.mem_singleton] at hpool
          rcases hpool with h | h
          · exact h
          · exact absurd (h.trans hpid) hother
        · simpa [hpp] using hpool
      · rcases mem_reaped_cases st i d _ hdi
          (exitSelf_pid noPid d code safe) e.pid hreaped with ⟨h, _, _⟩ | ⟨k, e2, _, hk, hep, hpp, hst⟩
        · exact absurd (h.trans hpid) hother
        · have hkj : k = j := uniquePids_index st.allProcs huniq k j e2 e hk he hep
          subst hkj
          rw [he] at hk
          cases hk
          exact absurd ⟨hpp, hst⟩ hz

/-- C6, at `familyTable` when process 2 exits: its Zombie child 3 is reaped and its
pid put in the pool, its Running child 4 keeps its `ppid` 2 and its state. -/
theorem sys__exit_reaps_zombie_children_witness :
    (∃ st1, sys__exit 0 familyTable 2 7 true = .done st1 ∧
      st1.allProcs[2]? = some ⟨3, 0, PROC_EXITED, 20⟩ ∧ (3 : Int) ∈ st1.reusePIDs) ∧
    (∃ st1, sys__exit 0 familyTable 2 7 true = .done st1 ∧
      st1.allProcs[3]? = some ⟨4, 2, PROC_RUNNING, 0⟩ ∧ (4 : Int) ∉ st1.reusePIDs) :=
  ⟨(sys__exit_reaps_zombie_children 0 familyTable 2 7 true ⟨2, 1, PROC_RUNNING, 0⟩
      ⟨3, 2, PROC_ZOMBIE, 20⟩ 2 rfl (by decide) (by decide) (by decide) (by decide)).imp
      fun _ h => ⟨h.1, h.2.1 (by decide)⟩,
   (sys__exit_reaps_zombie_children 0 familyTable 2 7 true ⟨2, 1, PROC_RUNNING, 0⟩
      ⟨4, 2, PROC_RUNNING, 0⟩ 3 rfl (by decide) (by decide) (by decide) (by decide)).imp
      fun _ h => ⟨h.1, (h.2.2 (by decide)).1,
        fun hm => absurd ((h.2.2 (by decide)).2 hm) (by decide)⟩⟩

/-! ### `sys_fork` -/

theorem getDesc_set_other (st : ProcTableState) (i : Nat) (c x : procTable) (pid : Int)
    (hc : st.allProcs[i]? = some c) (hx : x.pid = c.pid) (hne : c.pid ≠ pid) :
    getDesc { st with allProcs := st.allProcs.set i x } pid = getDesc st pid := by
  unfold getDesc
  simp only
  rw [getPT_congr st.allProcs _ pid (set_same_pid st.allProcs i c x hc hx)]
  cases hg : getPT st.allProcs pid with
  | none => rfl
  | some k =>
    obtain ⟨⟨e, he, hp⟩, _⟩ := (getPT_some_iff _ _ _).1 hg
    have hik : i ≠ k := by
      intro h
      subst h
      rw [hc] at he
      cases he
      exact hne hp
    simp only [Option.some_bind]
    rw [List.getElem?_set_ne hik]

/-- When `proc_create_runprogram` returns `NULL`, `sys_fork` does not return `ENPROC`:
it reads `newProc->pid` first. -/
theorem sys_fork_null_newProc (destroy : ProcTableState → Int → ProcTableState)
    (st : ProcTableState) (curpid : Int) (asCopied ntf : Bool) (tf : Int) :
    sys_fork (fun t => (none, t)) destroy st curpid asCopied ntf tf = .nullDeref := rfl

/-- C9, as the claim states it, fails: `thread_fork` fails with `ENOMEM` and
`sys_fork` returns that value, not `ENPROC`. -/
theorem sys_fork_thread_fork_counterexample :
    ∃ r, sys_fork createPid2 destroyKeep initTable 1 true true ENOMEM = .done r ∧
      r.ret = ENOMEM ∧ r.ret ≠ ENPROC :=
  ⟨{ ret := ENOMEM, retval := none,
     st := { allProcs := [⟨1, 0, PROC_RUNNING, 0⟩, ⟨2, 1, PROC_RUNNING, 0⟩],
             reusePIDs := [], procTableLock := false } },
    by decide, rfl, by decide⟩

/-- C9, amended. Let `proc_create_runprogram` return a new process `newpid` other than
the caller, with a descriptor in the table, and let it and `proc_destroy(newProc)`
leave the caller's descriptor alone.  Then `sys_fork` returns, and it returns `ENOMEM`
when the address space or the trap frame cannot be duplicated, the value of
`thread_fork` itself when that is non-zero, and 0 with `*retval = newpid` otherwise;
it returns no other value.  On every failure the caller's descriptor is unchanged and
`*retval` is not written. -/
theorem sys_fork_error_mapping
    (create : ProcTableState → Option Int × ProcTableState)
    (destroy : ProcTableState → Int → ProcTableState)
    (st st1 : ProcTableState) (curpid newpid : Int) (c : procTable)
    (asCopied ntf : Bool) (tf : Int)
    (hcreate : create st = (some newpid, st1)) (hchild : getDesc st1 newpid = some c)
    (hnew : newpid ≠ curpid) (hframe1 : getDesc st1 curpid = getDesc st curpid)
    (hframe2 : ∀ t, getDesc (destroy t newpid) curpid = getDesc t curpid) :
    ∃ r, sys_fork create destroy st curpid asCopied ntf tf = .done r ∧
      (asCopied = false ∨ ntf = false → r.ret = ENOMEM) ∧
      (asCopied = true → ntf = true → tf ≠ 0 → r.ret = tf) ∧
      (asCopied = true → ntf = true → tf = 0 → r.ret = 0 ∧ r.retval = some newpid) ∧
      (r.ret = 0 ∨ r.ret = ENOMEM ∨ r.ret = tf) ∧
      (r.ret ≠ 0 → r.retval = none ∧ getDesc r.st curpid = getDesc st curpid) := by
  obtain ⟨i, hi, hci, hpid⟩ := getDesc_eq_some st1 newpid c hchild
  have hkeep : ∀ x : procTable, x.pid = c.pid →
      getDesc (destroy { st1 with allProcs := st1.allProcs.set i x } newpid) curpid
        = getDesc st curpid := by
    intro x hx
    rw [hframe2, getDesc_set_other st1 i c x curpid hci hx (by rw [hpid]; exact hnew), hframe1]
  cases asCopied with
  | false =>
    refine ⟨_, by simp [sys_fork, hcreate, hi, hci]; rfl, ?_, ?_, ?_, ?_, ?_⟩
    · intro _; rfl
    · intro h; cases h
    · intro h; cases h
    · exact Or.inr (Or.inl rfl)
    · intro _; exact ⟨rfl, hkeep _ rfl⟩
  | true =>
    cases ntf with
    | false =>
      refine ⟨_, by simp [sys_fork, hcreate, hi, hci]; rfl, ?_, ?_, ?_, ?_, ?_⟩
      · intro _; rfl
      · intro _ h; cases h
      · intro _ h; cases h
      · exact Or.inr (Or.inl rfl)
      · intro _; exact ⟨rfl, hkeep _ rfl⟩
    | true =>
      by_cases htf : tf = 0
      · subst htf
        refine ⟨_, by simp [sys_fork, hcreate, hi, hci]; rfl, ?_, ?_, ?_, ?_, ?_⟩
        · intro h; rcases h with h | h <;> cases h
        · intro _ _ h; exact absurd rfl h
        · intro _ _ _; exact ⟨rfl, rfl⟩
        · exact Or.inl rfl
        · intro h; exact absurd rfl h
      · refine ⟨_, by simp [sys_fork, hcreate, hi, hci, htf]; rfl, ?_, ?_, ?_, ?_, ?_⟩
        · intro h; rcases h with h | h <;> cases h
        · intro _ _ _; rfl
        · intro _ _ h; exact absurd h htf
        · exact Or.inr (Or.inr rfl)
        · intro _; exact ⟨rfl, hkeep _ rfl⟩

/-- C9 amended, at `initTable`: process 1 forks, the child gets pid 2, and
`thread_fork` fails with `ENOMEM`. -/
theorem sys_fork_error_mapping_witness :
    ∃ r, sys_fork createPid2 destroyKeep initTable 1 true true ENOMEM = .done r ∧
      r.ret = ENOMEM ∧ r.retval = none ∧ getDesc r.st 1 = getDesc initTable 1 :=
  (sys_fork_error_mapping createPid2 destroyKeep initTable (createPid2 initTable).2 1 2
      ⟨2, 0, PROC_RUNNING, 0⟩ true true ENOMEM rfl (by decide) (by decide) (by decide)
      (fun _ => rfl)).imp
    fun _ h => ⟨h.1, h.2.2.1 rfl rfl (by decide),
      (h.2.2.2.2.2 (by rw [h.2.2.1 rfl rfl (by decide)]; decide)).1,
      (h.2.2.2.2.2 (by rw [h.2.2.1 rfl rfl (by decide)]; decide)).2⟩

/-! ### `sys_execv`: the argument bound -/

theorem countArgs_none_iff (args : List (List Char)) (k : Nat) :
    countArgs args k = none ↔ ∃ a ∈ args, strlen a > 1024 := by
  induction args generalizing k with
  | nil => simp [countArgs]
  | cons a rest ih =>
    by_cases ha : strlen a > 1024
    · simp [countArgs, ha]
    · simp [countArgs, ha, ih]

theorem countArgs_some (args : List (List Char)) (k n : Nat)
    (h : countArgs args k = some n) : n = k + args.length := by
  induction args generalizing k with
  | nil =>
    simp only [countArgs, Option.some.injEq] at h
    simp [h]
  | cons a rest ih =>
    by_cases ha : strlen a > 1024
    · simp [countArgs, ha] at h
    · simp only [countArgs, ha, if_false] at h
      have := ih (k + 1) h
      simp only [List.length_cons]; omega

set_option maxRecDepth 100000 in
/-- C7, as the claim states it, fails: with a program name of 2000 characters and no
argument, and with one argument of 1024 characters (1025 bytes with its terminator),
`sys_execv` does not return `E2BIG`; it opens the file and goes on to
`enter_new_process`. -/
theorem sys_execv_long_name_counterexample :
    (sys_execv okEnv 1000 (some (List.replicate 2000 'x')) []).ret = none ∧
    ExecEvent.vfs_open ∈ (sys_execv okEnv 1000 (some (List.replicate 2000 'x')) []).trace ∧
    (sys_execv okEnv 1000 (some ['s', 'h']) [List.replicate 1024 'x']).ret = none := by
  decide

/-- C7, amended. For a non-`NULL` program name whose buffer is allocated and which is
copied in, `sys_execv` returns `E2BIG` whenever some argument has more than 1024
characters before its terminator or there are more than 64 arguments; it has then made
no collaborator call (the file is not opened, no address space is created) and the
address space of the process is the one it had.  The length of the program name is
not bounded. -/
theorem sys_execv_arg_bound (env : ExecEnv) (curas : Nat) (name : List Char)
    (args : List (List Char)) (hk : env.kmallocProgram = true)
    (hc : env.copyinstrProgram = 0)
    (hbig : (∃ a ∈ args, strlen a > 1024) ∨ args.length > 64) :
    sys_execv env curas (some name) args
      = { ret := some E2BIG, trace := [], p_addrspace := curas } := by
  unfold sys_execv
  simp only [hk, hc, Bool.not_true, Bool.false_eq_true, if_false, ne_eq, not_true_eq_false]
  cases hcount : countArgs args 0 with
  | none => rfl
  | some argc =>
    have hn := countArgs_some args 0 argc hcount
    have hlong : ¬ ∃ a ∈ args, strlen a > 1024 := by
      intro h
      rw [(countArgs_none_iff args 0).2 h] at hcount
      cases hcount
    have h64 : argc > 64 := by
      rcases hbig with h | h
      · exact absurd h hlong
      · omega
    simp [h64]

/-- C7 amended, at a vector of 65 one-character arguments. -/
theorem sys_execv_arg_bound_witness :
    sys_execv okEnv 1000 (some ['s', 'h']) (List.replicate 65 ['a'])
      = { ret := some E2BIG, trace := [], p_addrspace := 1000 } :=
  sys_execv_arg_bound okEnv 1000 ['s', 'h'] (List.replicate 65 ['a']) rfl rfl
    (Or.inr (by decide))

/-! ### `sys_execv`: the address space on failure -/

/-- C8. The program loads but the copy of the argument to the new stack fails
(`copyoutstr` returns `EFAULT`): `sys_execv` returns `EFAULT` and the address space of
the process is the new one (2000), not the one it had (1000).  When `load_elf` fails,
the address space installed is the content of the unassigned local `as` (3000).  On
the path to `enter_new_process`, `as_destroy` is applied to that same content, not to
the original address space. -/
theorem sys_execv_failure_not_restored :
    sys_execv { okEnv with copyoutstr := fun _ => EFAULT } 1000 (some ['s', 'h']) [['a']]
      = { ret := some EFAULT,
          trace := [.vfs_open, .as_create, .curproc_setas 2000, .as_activate, .load_elf,
                    .vfs_close, .as_define_stack, .copyoutstr 2147483646 ['a']],
          p_addrspace := 2000 } ∧
    sys_execv { okEnv with load_elf := ENOEXEC } 1000 (some ['s', 'h']) [['a']]
      = { ret := some ENOEXEC,
          trace := [.vfs_open, .as_create, .curproc_setas 2000, .as_activate, .load_elf,
                    .vfs_close, .curproc_setas 3000],
          p_addrspace := 3000 } ∧
    ExecEvent.as_destroy 3000 ∈ (sys_execv okEnv 1000 (some ['s', 'h']) [['a']]).trace ∧
    ExecEvent.as_destroy 1000 ∉ (sys_execv okEnv 1000 (some ['s', 'h']) [['a']]).trace := by
  decide

/-! ### `sys_execv`: the initial stack -/

theorem alignLoop8_eq (fuel sp : Nat) (hf : sp % 8 ≤ fuel) (hsp : sp < 4294967296) :
    alignLoop 8 fuel sp = sp - sp % 8 := by
  induction fuel generalizing sp with
  | zero =>
    have h0 : sp % 8 = 0 := by omega
    simp [alignLoop, h0]
  | succ f ih =>
    by_cases h0 : sp % 8 = 0
    · simp [alignLoop, h0]
    · have hs : sub32 sp 1 = sp - 1 := by unfold sub32; omega
      simp only [alignLoop, ne_eq, h0, not_false_eq_true, if_true, hs]
      rw [ih (sp - 1) (by omega) (by omega)]
      omega

theorem alignLoop4_eq (fuel sp : Nat) (hf : sp % 4 ≤ fuel) (hsp : sp < 4294967296) :
    alignLoop 4 fuel sp = sp - sp % 4 := by
  induction fuel generalizing sp with
  | zero =>
    have h0 : sp % 4 = 0 := by omega
    simp [alignLoop, h0]
  | succ f ih =>
    by_cases h0 : sp % 4 = 0
    · simp [alignLoop, h0]
    · have hs : sub32 sp 1 = sp - 1 := by unfold sub32; omega
      simp only [alignLoop, ne_eq, h0, not_false_eq_true, if_true, hs]
      rw [ih (sp - 1) (by omega) (by omega)]
      omega

theorem pushStrings_ok (co : Nat → Int) (km : Nat → Bool) (args : List (List Char))
    (i sp : Nat)
    (herr : (pushStrings co (kernelArgs km i args) sp).err = 0)
    (hfault : (pushStrings co (kernelArgs km i args) sp).fault = false)
    (hfit : (args.map argSize).sum ≤ sp) (hsp : sp < 4294967296) :
    (pushStrings co (kernelArgs km i args) sp).sp = sp - (args.map argSize).sum ∧
    (pushStrings co (kernelArgs km i args) sp).ptrs = stringAddrs sp args ∧
    (pushStrings co (kernelArgs km i args) sp).trace = stringWrites sp args := by
  induction args generalizing i with
  | nil => simp [kernelArgs, pushStrings, stringAddrs, stringWrites]
  | cons a rest ih =>
    simp only [List.map_cons, List.sum_cons] at hfit
    by_cases hr : (pushStrings co (kernelArgs km (i + 1) rest) sp).err = 0
    · by_cases hf : (pushStrings co (kernelArgs km (i + 1) rest) sp).fault = false
      · obtain ⟨h1, h2, h3⟩ := ih (i + 1) hr hf (by omega)
        have hsub : sub32 (sp - (rest.map argSize).sum) (strlen a + 1)
            = sp - (argSize a + (rest.map argSize).sum) := by
          unfold sub32 argSize at *; omega
        cases hk : km i with
        | false =>
          exfalso
          simp [kernelArgs, pushStrings, hr, hf, hk] at hfault
        | true =>
          by_cases hc : co (sp - (argSize a + (rest.map argSize).sum)) = 0
          · simp [kernelArgs, pushStrings, hr, hf, hk, h1, h2, h3, hsub, hc, stringAddrs,
              stringWrites]
          · exfalso
            simp [kernelArgs, pushStrings, hr, hf, hk, h1, hsub, hc] at herr
      · exfalso
        simp [kernelArgs, pushStrings, hr, hf] at hfault
    · exfalso
      simp [kernelArgs, pushStrings, hr] at herr

theorem pushWords_ok (co : Nat → Int) (ws : List Nat) (sp : Nat)
    (herr : (pushWords co ws sp).err = 0) (hfit : 4 * ws.length ≤ sp)
    (hsp : sp < 4294967296) :
    (pushWords co ws sp).sp = sp - 4 * ws.length ∧
    (pushWords co ws sp).trace = wordWrites (sp - 4 * ws.length) ws := by
  induction ws with
  | nil => simp [pushWords, wordWrites]
  | cons w rest ih =>
    simp only [List.length_cons] at hfit
    by_cases hr : (pushWords co rest sp).err = 0
    · obtain ⟨h1, h2⟩ := ih hr (by omega)
      have hsub : sub32 (sp - 4 * rest.length) 4 = sp - 4 * (rest.length + 1) := by
        unfold sub32; omega
      have hadd : sp - 4 * (rest.length + 1) + 4 = sp - 4 * rest.length := by omega
      by_cases hc : co (sp - 4 * (rest.length + 1)) = 0
      · simp [pushWords, hr, h1, h2, hsub, hc, wordWrites, hadd]
      · exfalso
        simp [pushWords, hr, h1, hsub, hc] at herr
    · exfalso
      simp [pushWords, hr] at herr

theorem stringAddrs_length (top : Nat) (args : List (List Char)) :
    (stringAddrs top args).length = args.length := by
  induction args with
  | nil => rfl
  | cons a rest ih => simp [stringAddrs, ih]

theorem stringAddrs_next_zero (top : Nat) (rest : List (List Char)) :
    (stringAddrs top rest ++ [top])[0]? = some (top - (rest.map argSize).sum) := by
  cases rest with
  | nil => simp [stringAddrs]
  | cons b more => simp [stringAddrs]

/-- The copies are packed: the copy of argument `i` ends where the copy of argument
`i + 1` starts, the copy of the last argument ends at `top`; and each is made by a
`copyoutstr` call of `stringWrites`. -/
theorem stringAddrs_chain (top : Nat) (args : List (List Char))
    (hfit : (args.map argSize).sum ≤ top) (i : Nat) (a : List Char)
    (ha : args[i]? = some a) :
    ∃ p, (stringAddrs top args)[i]? = some p ∧
      (stringAddrs top args ++ [top])[i + 1]? = some (p + argSize a) ∧
      ExecEvent.copyoutstr p a ∈ stringWrites top args := by
  induction args generalizing i with
  | nil => simp at ha
  | cons b rest ih =>
    simp only [List.map_cons, List.sum_cons] at hfit
    cases i with
    | zero =>
      simp only [List.getElem?_cons_zero, Option.some.injEq] at ha
      subst ha
      refine ⟨top - (argSize b + (rest.map argSize).sum), by simp [stringAddrs], ?_, ?_⟩
      · simp only [stringAddrs, List.cons_append, List.getElem?_cons_succ]
        rw [stringAddrs_next_zero]
        congr 1
        omega
      · simp [stringWrites]
    | succ k =>
      simp only [List.getElem?_cons_succ] at ha
      obtain ⟨p, h1, h2, h3⟩ := ih (by omega) k ha
      refine ⟨p, by simpa [stringAddrs] using h1, ?_, ?_⟩
      · simpa [stringAddrs] using h2
      · simp only [stringWrites, List.mem_append]
        exact Or.inl h3

/-- The word `i` of `ws` is stored at `sp + 4 * i` by a `copyout` call of `wordWrites`. -/
theorem wordWrites_mem (sp : Nat) (ws : List Nat) (i w : Nat) (hw : ws[i]? = some w) :
    ExecEvent.copyout (sp + 4 * i) w ∈ wordWrites sp ws := by
  induction ws generalizing sp i with
  | nil => simp at hw
  | cons v rest ih =>
    cases i with
    | zero =>
      simp only [List.getElem?_cons_zero, Option.some.injEq] at hw
      subst hw
      simp [wordWrites]
    | succ k =>
      simp only [List.getElem?_cons_succ] at hw
      have := ih (sp + 4) k hw
      simp only [wordWrites, List.mem_append]
      left
      have e : sp + 4 * (k + 1) = sp + 4 + 4 * k := by omega
      rw [e]; exact this

theorem buildStack_success (env : ExecEnv) (argc : Nat)
    (newArgs : List (Option (List Char))) (before : List ExecEvent)
    (hret : (buildStack env argc newArgs before).ret = none)
    (hfault : (buildStack env argc newArgs before).fault = none) :
    (pushStrings env.copyoutstr newArgs (alignLoop 8 8 env.stackptr)).fault = false ∧
    (pushStrings env.copyoutstr newArgs (alignLoop 8 8 env.stackptr)).err = 0 ∧
    (pushWords env.copyout
      ((pushStrings env.copyoutstr newArgs (alignLoop 8 8 env.stackptr)).ptrs ++ [0])
      (alignLoop 4 4 (pushStrings env.copyoutstr newArgs (alignLoop 8 8 env.stackptr)).sp)).err
        = 0 := by
  unfold buildStack at hret hfault
  by_cases h0 : (pushStrings env.copyoutstr newArgs (alignLoop 8 8 env.stackptr)).fault = false
  · by_cases h1 : (pushStrings env.copyoutstr newArgs (alignLoop 8 8 env.stackptr)).err = 0
    · refine ⟨h0, h1, ?_⟩
      by_contra h2
      simp [h0, h1, h2] at hret
    · simp [h0, h1] at hret
  · simp [h0] at hfault

/-- What holds when `sys_execv` gets to `enter_new_process`. -/
theorem sys_execv_success (env : ExecEnv) (curas : Nat) (progname : Option (List Char))
    (args : List (List Char)) (hret : (sys_execv env curas progname args).ret = none)
    (hfault : (sys_execv env curas progname args).fault = none) :
    args.length ≤ 64 ∧
      (∃ room, env.kmallocArgs = some room ∧ 4 * (args.length + 1) ≤ room) ∧
      sys_execv env curas progname args
        = buildStack env args.length (kernelArgs env.kmallocArg 0 args) (loadTrace env) := by
  cases progname with
  | none => simp [sys_execv] at hret
  | some name =>
    by_cases hk : env.kmallocProgram = true
    swap
    · simp [sys_execv, hk] at hret
    by_cases hc : env.copyinstrProgram = 0
    swap
    · simp [sys_execv, hk, hc] at hret
    cases hcount : countArgs args 0 with
    | none => simp [sys_execv, hk, hc, hcount] at hret
    | some argc =>
      have hn : argc = args.length := by
        have := countArgs_some args 0 argc hcount; omega
      subst hn
      by_cases h64 : args.length > 64
      · simp [sys_execv, hk, hc, hcount, h64] at hret
      cases hroom : env.kmallocArgs with
      | none => simp [sys_execv, hk, hc, hcount, h64, hroom] at hfault
      | some room =>
        cases hcopy : copyinArgs room env.copyinstrArg 0 args.length with
        | overflow => simp [sys_execv, hk, hc, hcount, h64, hroom, hcopy] at hfault
        | failed result => simp [sys_execv, hk, hc, hcount, h64, hroom, hcopy] at hret
        | copied =>
          by_cases hr4 : room < 4 * (args.length + 1)
          · simp [sys_execv, hk, hc, hcount, h64, hroom, hcopy, hr4] at hfault
          by_cases hvo : env.vfs_open = 0
          swap
          · simp [sys_execv, hk, hc, hcount, h64, hroom, hcopy, hr4, hvo] at hret
          by_cases hac : env.as_create = 0
          · simp [sys_execv, hk, hc, hcount, h64, hroom, hcopy, hr4, hvo, hac] at hret
          by_cases hle : env.load_elf = 0
          swap
          · simp [sys_execv, hk, hc, hcount, h64, hroom, hcopy, hr4, hvo, hac, hle] at hret
          by_cases hds : env.as_define_stack = 0
          swap
          · simp [sys_execv, hk, hc, hcount, h64, hroom, hcopy, hr4, hvo, hac, hle, hds] at hret
          refine ⟨by omega, ⟨room, rfl, by omega⟩, ?_⟩
          simp only [sys_execv, hk, hc, hcount, h64, hroom, hcopy, hr4, hvo, hac, hle, hds,
            Bool.not_true, Bool.false_eq_true, if_false, ne_eq, not_true_eq_false]

/-- With five arguments and a block of 16 bytes for `newArgs`, the fifth pointer is
stored outside the block (line 240, `i = 4`), before the file is opened. -/
theorem sys_execv_five_args_overflow :
    sys_execv okEnv 1000 (some ['s', 'h']) (List.replicate 5 ['a', 'a'])
      = { ret := none, trace := [], p_addrspace := 1000, fault := some .heapOverflow } := by
  decide

/-- When `kmalloc` returns `NULL` for `newArgs`, the stores of lines 240 and 246 go
through the `NULL` pointer. -/
theorem sys_execv_newArgs_null :
    sys_execv { okEnv with kmallocArgs := none } 1000 (some ['s', 'h']) [['a']]
      = { ret := none, trace := [], p_addrspace := 1000, fault := some .nullDeref } := by
  decide

/-- C10, as the claim states it, fails: with the single argument "ab" and the stack
top `0x80000000`, `sys_execv` gets to `enter_new_process` and the copy of the argument
starts at `0x7ffffffd`, which is not a multiple of 4. -/
theorem sys_execv_string_unaligned_counterexample :
    (sys_execv okEnv 1000 (some ['s', 'h']) [['a', 'b']]).ret = none ∧
    (sys_execv okEnv 1000 (some ['s', 'h']) [['a', 'b']]).fault = none ∧
    ExecEvent.copyoutstr 2147483645 ['a', 'b']
      ∈ (sys_execv okEnv 1000 (some ['s', 'h']) [['a', 'b']]).trace ∧
    2147483645 % 4 ≠ 0 := by
  decide

/-- C10, amended. Let `sys_execv` get to `enter_new_process` (it neither returns nor
stops at a fault), with a stack top below `2^32` that leaves room for the strings and
the pointer array.  Then the block `kmalloc` returned for `newArgs` has room for the
`argc + 1` pointers stored in it, and there are at most 64 arguments.  Write `top` for
the stack top aligned down to 8, `ptrs` for `stringAddrs top args` and `sp` for
`finalSp top args`.  The collaborator calls are those up to `as_define_stack`, the
`copyoutstr` calls that pack the strings downwards from `top` (last argument first),
the `copyout` calls that store `ptrs` followed by 0 at `sp`, `sp + 4`, ... (last word
first), `as_destroy`, and `enter_new_process` with `argc` the number of arguments and
`sp` as both the `argv` address and the stack pointer.  `sp` is a multiple of 4 and
the array ends at or below the lowest string.  The copy of argument `i` starts at
`ptrs[i]` and ends where the copy of argument `i + 1` starts (at `top` for the last
one), with no alignment of its own; the word at `sp + 4 * i` is `ptrs[i]` and the word
at `sp + 4 * argc` is 0. -/
theorem sys_execv_stack_layout (env : ExecEnv) (curas : Nat)
    (progname : Option (List Char)) (args : List (List Char))
    (hret : (sys_execv env curas progname args).ret = none)
    (hfault : (sys_execv env curas progname args).fault = none)
    (hsp : env.stackptr < 4294967296)
    (hfit : (args.map argSize).sum + 4 * (args.length + 1) + 10 ≤ env.stackptr) :
    (∃ room, env.kmallocArgs = some room ∧ 4 * (args.length + 1) ≤ room) ∧
    args.length ≤ 64 ∧
    (sys_execv env curas progname args).trace =
      loadTrace env ++ stringWrites (stackTop8 env) args ++
        wordWrites (finalSp (stackTop8 env) args) (stringAddrs (stackTop8 env) args ++ [0]) ++
        [.as_destroy env.as_uninit,
         .enter_new_process args.length (finalSp (stackTop8 env) args)
           (finalSp (stackTop8 env) args) env.entrypoint] ∧
    finalSp (stackTop8 env) args % 4 = 0 ∧
    finalSp (stackTop8 env) args + 4 * (args.length + 1)
      ≤ stringsBase (stackTop8 env) args ∧
    (∀ i a, args[i]? = some a →
      ∃ p, (stringAddrs (stackTop8 env) args)[i]? = some p ∧
        (stringAddrs (stackTop8 env) args ++ [stackTop8 env])[i + 1]? = some (p + argSize a) ∧
        ExecEvent.copyoutstr p a ∈ (sys_execv env curas progname args).trace ∧
        ExecEvent.copyout (finalSp (stackTop8 env) args + 4 * i) p
          ∈ (sys_execv env curas progname args).trace) ∧
    ExecEvent.copyout (finalSp (stackTop8 env) args + 4 * args.length) 0
      ∈ (sys_execv env curas progname args).trace := by
  obtain ⟨h64, hblock, heq⟩ := sys_execv_success env curas progname args hret hfault
  rw [heq] at hret hfault
  obtain ⟨h0, h1, h2⟩ := buildStack_success env args.length
    (kernelArgs env.kmallocArg 0 args) (loadTrace env) hret hfault
  have htop : alignLoop 8 8 env.stackptr = stackTop8 env :=
    alignLoop8_eq 8 env.stackptr (by omega) hsp
  have hle : stackTop8 env ≤ env.stackptr := Nat.sub_le _ _
  have hge : (args.map argSize).sum + 4 * (args.length + 1) + 3 ≤ stackTop8 env := by
    unfold stackTop8; omega
  rw [htop] at h0 h1 h2
  obtain ⟨p1, p2, p3⟩ := pushStrings_ok env.copyoutstr env.kmallocArg args 0
    (stackTop8 env) h1 h0 (by omega) (by omega)
  rw [p1, p2] at h2
  have hbase : alignLoop 4 4 (stackTop8 env - (args.map argSize).sum)
      = stringsBase (stackTop8 env) args - stringsBase (stackTop8 env) args % 4 :=
    alignLoop4_eq 4 _ (by omega) (by omega)
  rw [hbase] at h2
  have hlen : (stringAddrs (stackTop8 env) args ++ [0]).length = args.length + 1 := by
    simp [stringAddrs_length]
  have hroom : 4 * (stringAddrs (stackTop8 env) args ++ [0]).length
      ≤ stringsBase (stackTop8 env) args - stringsBase (stackTop8 env) args % 4 := by
    rw [hlen]; unfold stringsBase; omega
  obtain ⟨q1, q2⟩ := pushWords_ok env.copyout _ _ h2 hroom (by unfold stringsBase; omega)
  rw [hlen] at q1 q2
  have hsp' : stringsBase (stackTop8 env) args - stringsBase (stackTop8 env) args % 4
      - 4 * (args.length + 1) = finalSp (stackTop8 env) args := rfl
  rw [hsp'] at q1 q2
  have htrace : (sys_execv env curas progname args).trace =
      loadTrace env ++ stringWrites (stackTop8 env) args ++
        wordWrites (finalSp (stackTop8 env) args) (stringAddrs (stackTop8 env) args ++ [0]) ++
        [.as_destroy env.as_uninit,
         .enter_new_process args.length (finalSp (stackTop8 env) args)
           (finalSp (stackTop8 env) args) env.entrypoint] := by
    rw [heq]
    unfold buildStack
    simp only [htop, h0, h1, p1, p2, p3, hbase, h2, q1, q2, ne_eq, not_true_eq_false,
      if_false, Bool.false_eq_true]
  refine ⟨hblock, h64, htrace, ?_, ?_, ?_, ?_⟩
  · unfold finalSp; omega
  · unfold finalSp; omega
  · intro i a ha
    obtain ⟨p, c1, c2, c3⟩ := stringAddrs_chain (stackTop8 env) args (by omega) i a ha
    refine ⟨p, c1, c2, ?_, ?_⟩
    · rw [htrace]
      simp only [List.mem_append]
      exact Or.inl (Or.inl (Or.inr c3))
    · rw [htrace]
      simp only [List.mem_append]
      refine Or.inl (Or.inr (wordWrites_mem _ _ i p ?_))
      have hi : i < (stringAddrs (stackTop8 env) args).length :=
        (List.getElem?_eq_some.1 c1).1
      rw [List.getElem?_append_left hi]
      exact c1
  · rw [htrace]
    simp only [List.mem_append]
    refine Or.inl (Or.inr (wordWrites_mem _ _ args.length 0 ?_))
    rw [List.getElem?_append_right (by rw [stringAddrs_length])]
    simp [stringAddrs_length]

/-- C10 amended, at the arguments "ab" and "c" with the stack top `0x80000000`: "c" is
copied to `0x7ffffffe`, "ab" to `0x7ffffffb` just below it, and the array of the two
pointers and `NULL` is at `sp = 0x7fffffec`. -/
theorem sys_execv_stack_layout_witness :
    (∃ room, okEnv.kmallocArgs = some room ∧ 4 * ([['a', 'b'], ['c']].length + 1) ≤ room) ∧
    [['a', 'b'], ['c']].length ≤ 64 ∧
    (sys_execv okEnv 1000 (some ['s', 'h']) [['a', 'b'], ['c']]).trace =
      [.vfs_open, .as_create, .curproc_setas 2000, .as_activate, .load_elf, .vfs_close,
       .as_define_stack, .copyoutstr 2147483646 ['c'], .copyoutstr 2147483643 ['a', 'b'],
       .copyout 2147483636 0, .copyout 2147483632 2147483646, .copyout 2147483628 2147483643,
       .as_destroy 3000, .enter_new_process 2 2147483628 2147483628 4194304] :=
  have h := sys_execv_stack_layout okEnv 1000 (some ['s', 'h']) [['a', 'b'], ['c']]
    (by decide) (by decide) (by decide) (by decide)
  ⟨h.1, h.2.1, h.2.2.1⟩

end ProcSyscalls
